import Mathlib

/-!
Verification development for the robo-advisor strategy-evaluation engine.

The definitions below are a shallow embedding of the Python source:
* `simStep`, `simLoop`, `computeMetrics`, `simulate_trading` embed
  `simulate_trading` from `src/main.py` (lines 25-85);
* the strategy constructors and signal generators embed `src/strategy.py`;
* `evaluateCombination`, `allCombinations`, `runOptimization` embed
  `Optimizer._evaluate_combination` and `Optimizer.run_optimization`
  from `src/optimizer.py`.

Machine floats are modelled as exact rationals; the two transcendental
operations the simulator uses (`**` for the CAGR power and `np.sqrt`) are
abstracted as an explicit `FloatOps` parameter, and the IEEE special values
produced by the RSI computation (NaN from 0/0, plus infinity from x/0 with
x > 0) are modelled explicitly by the `FVal` type.
-/

namespace RoboAdvisor

/-- One row of the signal DataFrame consumed by `simulate_trading`:
a `price` column and a `signal` column (1 buy, -1 sell, 0 hold). -/
structure SignalRow where
  price : ℚ
  signal : ℚ
deriving DecidableEq, Repr

/-- One row of the portfolio DataFrame built by `simulate_trading`
(`holdings`, `cash`, `total` columns, `src/main.py` lines 40-43). -/
structure PortfolioRow where
  holdings : ℚ
  cash : ℚ
  total : ℚ
deriving DecidableEq, Repr

/-- The transcendental float operations used by `simulate_trading`:
`pow` stands for Python `**` (the CAGR line) and `sqrt` for `np.sqrt`
(the volatility line).  All theorems are proved for every `FloatOps`. -/
structure FloatOps where
  pow : ℚ → ℚ → ℚ
  sqrt : ℚ → ℚ

/-- The per-step state update of the trading loop (`src/main.py` lines
47-55): on signal 1 with positive cash, convert all cash into
`cash / price` units; on signal -1 with a positive position, convert the
whole position into cash; otherwise leave `(cash, positions)` unchanged.
Returns the updated `(cash, positions)` pair. -/
def simStep (cash positions : ℚ) (r : SignalRow) : ℚ × ℚ :=
  if r.signal = 1 then
    if 0 < cash then (0, cash / r.price) else (cash, positions)
  else if r.signal = -1 then
    if 0 < positions then (positions * r.price, 0) else (cash, positions)
  else (cash, positions)

/-- The trading loop of `simulate_trading` (`src/main.py` lines 45-59):
threads `(cash, positions)` through `simStep` and records one
`PortfolioRow` per signal with `holdings = positions * price`,
`cash`, and `total = holdings + cash`. -/
def simLoop : ℚ → ℚ → List SignalRow → List PortfolioRow
  | _, _, [] => []
  | cash, positions, r :: rs =>
    { holdings := (simStep cash positions r).2 * r.price,
      cash := (simStep cash positions r).1,
      total := (simStep cash positions r).2 * r.price + (simStep cash positions r).1 } ::
      simLoop (simStep cash positions r).1 (simStep cash positions r).2 rs

/-- The `(cash, positions)` state held by the loop just before it
processes the signal at index `i`. -/
def stateBefore : ℚ → ℚ → List SignalRow → ℕ → ℚ × ℚ
  | cash, positions, _, 0 => (cash, positions)
  | cash, positions, [], _ + 1 => (cash, positions)
  | cash, positions, r :: rs, i + 1 =>
    stateBefore (simStep cash positions r).1 (simStep cash positions r).2 rs i

/-- Step `i` performs a transaction: its signal is 1 while the loop still
holds positive cash (a buy executes), or its signal is -1 while the loop
holds a positive position (a sell executes). -/
def isTransactionAt (cash positions : ℚ) (sigs : List SignalRow) (i : ℕ) : Prop :=
  match sigs[i]? with
  | none => False
  | some r =>
    (r.signal = 1 ∧ 0 < (stateBefore cash positions sigs i).1) ∨
    (r.signal = -1 ∧ 0 < (stateBefore cash positions sigs i).2)

/-- Tail of `pct_change`: successive relative changes, carrying the
previous value. -/
def pctChangeAux : ℚ → List ℚ → List (Option ℚ)
  | _, [] => []
  | prev, y :: ys => some (y / prev - 1) :: pctChangeAux y ys

/-- `Series.pct_change()` (`src/main.py` line 66): the first entry is
undefined (NaN, modelled as `none`), entry `i > 0` is
`total[i] / total[i-1] - 1`. -/
def pctChange : List ℚ → List (Option ℚ)
  | [] => []
  | x :: xs => none :: pctChangeAux x xs

/-- Pandas `Series.std()` with the default `ddof = 1` and NaN skipping,
applied to the squared deviations: undefined (NaN, modelled as `none`)
when fewer than two defined observations exist, otherwise the sample
variance.  The simulator's volatility is `sqrt` of this. -/
def sampleVar (xs : List (Option ℚ)) : Option ℚ :=
  let vs := xs.filterMap id
  if vs.length < 2 then none
  else
    some (((vs.map (fun v => (v - vs.sum / (vs.length : ℚ)) ^ 2)).sum) / ((vs.length : ℚ) - 1))

/-- Tail of the expanding maximum, carrying the running peak. -/
def runningMaxAux : ℚ → List ℚ → List ℚ
  | _, [] => []
  | m, x :: xs => max m x :: runningMaxAux (max m x) xs

/-- `Series.expanding(min_periods=1).max()` (`src/main.py` line 72):
the running maximum of the totals. -/
def runningMax : List ℚ → List ℚ
  | [] => []
  | x :: xs => x :: runningMaxAux x xs

/-- `Series.min()` over a nonempty list (`drawdown.min()`,
`src/main.py` line 74); 0 for the unreachable empty case. -/
def listMin : List ℚ → ℚ
  | [] => 0
  | x :: xs => xs.foldl min x

/-- The performance-metrics dictionary built by `simulate_trading`
(`src/main.py` lines 76-83).  `annualized_volatility` and `sharpe` are
`Option ℚ` because pandas produces NaN (modelled as `none`) for them on
short series. -/
structure Metrics where
  total_return : ℚ
  cagr : ℚ
  annualized_volatility : Option ℚ
  sharpe : Option ℚ
  max_drawdown : ℚ
  final_value : ℚ
deriving DecidableEq, Repr

/-- The errors `simulate_trading` can raise.  The code itself only ever
raises `indexError` (from `iloc[-1]` on an empty series); the
`insufficientData` constructor stands for the dedicated
`InsufficientDataError` the spec postulates, which no code path raises. -/
inductive SimError where
  | indexError
  | insufficientData
deriving DecidableEq, Repr

/-- The performance-calculation block of `simulate_trading`
(`src/main.py` lines 61-83), computed once the final total exists:
total return, CAGR (0 when `num_years ≤ 0`), annualized volatility
(`std * sqrt 252`, NaN-propagating), Sharpe ratio with the
`annualized_volatility != 0` guard (a NaN volatility passes the guard
and yields a NaN Sharpe, exactly as in IEEE arithmetic), and maximum
drawdown against the running peak. -/
def computeMetrics (ops : FloatOps) (initial : ℚ) (numSignals : ℕ)
    (totals : List ℚ) (finalTotal : ℚ) : Metrics :=
  let num_years : ℚ := (numSignals : ℚ) / 252
  let cagr : ℚ :=
    if 0 < num_years then ops.pow (finalTotal / initial) (1 / num_years) - 1 else 0
  let daily_return := pctChange totals
  let vol : Option ℚ := (sampleVar daily_return).map (fun v => ops.sqrt v * ops.sqrt 252)
  { total_return := finalTotal / initial - 1
    cagr := cagr
    annualized_volatility := vol
    sharpe := if vol ≠ some 0 then vol.map (fun v => (cagr - 0.02) / v) else some 0
    max_drawdown := listMin (List.zipWith (fun t p => t / p - 1) totals (runningMax totals))
    final_value := finalTotal }

/-- `simulate_trading` (`src/main.py` lines 25-85): run the trading loop,
then access the last total (`iloc[-1]`, an index error on an empty
series) and derive the metrics. Returns the metrics together with the
portfolio rows. -/
def simulate_trading (ops : FloatOps) (signals : List SignalRow) (initial : ℚ) :
    Except SimError (Metrics × List PortfolioRow) :=
  let pf := simLoop initial 0 signals
  match (pf.map PortfolioRow.total).getLast? with
  | none => Except.error SimError.indexError
  | some finalTotal =>
    Except.ok (computeMetrics ops initial signals.length (pf.map PortfolioRow.total) finalTotal, pf)

/-- `MovingAverageCrossover.__init__` (`src/strategy.py` lines 30-42):
raises `ValueError` ("short_window must be less than long_window")
when `short_window >= long_window`, otherwise stores the windows. -/
def movingAverageCrossoverNew (short_window long_window : ℤ) : Except String (ℤ × ℤ) :=
  if long_window ≤ short_window then
    Except.error "short_window must be less than long_window."
  else Except.ok (short_window, long_window)

/-- `RSIStrategy.__init__` (`src/strategy.py` lines 114-118): stores
`(rsi_period, overbought_threshold, oversold_threshold)` with no
validation whatsoever. -/
def rsiStrategyNew (rsi_period : ℤ) (overbought_threshold oversold_threshold : ℚ) :
    Except String (ℤ × ℚ × ℚ) :=
  Except.ok (rsi_period, overbought_threshold, oversold_threshold)

/-- `BollingerBandsStrategy.__init__` (`src/strategy.py` lines 145-148):
stores `(window, std_dev)` with no validation whatsoever. -/
def bollingerBandsStrategyNew (window : ℤ) (std_dev : ℚ) : Except String (ℤ × ℚ) :=
  Except.ok (window, std_dev)

/-- `BuyAndHold.__init__` (`src/strategy.py` lines 91-92): no parameters,
never fails. -/
def buyAndHoldNew : Except String Unit :=
  Except.ok ()

/-- `Series.diff()` (`src/strategy.py` line 125): the first entry is NaN
(modelled as `none`), entry `i > 0` is `x[i] - x[i-1]`. -/
def diffList (xs : List ℚ) : List (Option ℚ) :=
  (List.range xs.length).map fun i =>
    match i with
    | 0 => none
    | j + 1 => some (xs.getD (j + 1) 0 - xs.getD j 0)

/-- `delta.where(delta > 0, 0)` (`src/strategy.py` line 126): keep a
positive delta, replace everything else — including the leading NaN,
for which the condition is false — by 0. -/
def gainsOf (deltas : List (Option ℚ)) : List ℚ :=
  deltas.map fun d =>
    match d with
    | none => 0
    | some v => if 0 < v then v else 0

/-- `-delta.where(delta < 0, 0)` (`src/strategy.py` line 127): the
magnitude of a negative delta, 0 elsewhere (the leading NaN again maps
to 0). -/
def lossesOf (deltas : List (Option ℚ)) : List ℚ :=
  deltas.map fun d =>
    match d with
    | none => 0
    | some v => if v < 0 then -v else 0

/-- `Series.rolling(window=w).mean()` with the default
`min_periods = w`, on a NaN-free input: entry `i` is defined only once a
full window is available (`i + 1 ≥ w`) and is then the arithmetic mean
of the last `w` entries. -/
def rollingMean (w : ℕ) (xs : List ℚ) : List (Option ℚ) :=
  (List.range xs.length).map fun i =>
    if i + 1 < w then none
    else some ((((xs.take (i + 1)).drop (i + 1 - w)).sum) / (w : ℚ))

/-- An IEEE double as produced by the RSI arithmetic: NaN, one of the two
infinities, or a finite value (kept exact as a rational). -/
inductive FVal where
  | nan
  | posInf
  | negInf
  | fin (q : ℚ)
deriving DecidableEq, Repr

/-- IEEE division `g / l` for finite `g`, `l` as numpy performs it in
`rs = gain / loss` (`src/strategy.py` line 129): a zero divisor gives NaN
from 0/0 and a signed infinity otherwise; any other divisor divides
exactly. -/
def fdiv (g l : ℚ) : FVal :=
  if l = 0 then
    if g = 0 then FVal.nan else if 0 < g then FVal.posInf else FVal.negInf
  else FVal.fin (g / l)

/-- Elementwise combination of the rolling `gain` and `loss` columns into
`rs` (`src/strategy.py` line 129): an undefined (NaN) operand makes the
quotient NaN, a defined pair divides by `fdiv`. -/
def rsCombine : Option ℚ → Option ℚ → FVal
  | some g, some l => fdiv g l
  | _, _ => FVal.nan

/-- `rsi = 100 - (100 / (1 + rs))` (`src/strategy.py` line 130) in IEEE
arithmetic: NaN propagates; `rs = ±∞` gives `100 - 100/±∞ = 100 - ±0 =
100` exactly; `rs = -1` gives `100 - 100/0 = -∞`; any other finite `rs`
evaluates exactly. -/
def rsiFromRS : FVal → FVal
  | FVal.nan => FVal.nan
  | FVal.posInf => FVal.fin 100
  | FVal.negInf => FVal.fin 100
  | FVal.fin q => if 1 + q = 0 then FVal.negInf else FVal.fin (100 - 100 / (1 + q))

/-- `rsi < t` as pandas evaluates it: false for NaN, false for `+∞`,
true for `-∞`, exact comparison for finite values. -/
def fvalLt : FVal → ℚ → Bool
  | FVal.nan, _ => false
  | FVal.posInf, _ => false
  | FVal.negInf, _ => true
  | FVal.fin q, t => decide (q < t)

/-- `rsi > t` as pandas evaluates it: false for NaN, true for `+∞`,
false for `-∞`, exact comparison for finite values. -/
def fvalGt : FVal → ℚ → Bool
  | FVal.nan, _ => false
  | FVal.posInf, _ => true
  | FVal.negInf, _ => false
  | FVal.fin q, t => decide (t < q)

/-- The per-step signal assignment of `RSIStrategy.generate_signals`
(`src/strategy.py` lines 133-135): start from 0, set 1 where
`rsi < oversold_threshold`, then set -1 where
`rsi > overbought_threshold` (the later assignment wins when both
conditions hold). -/
def rsiStepSignal (overbought_threshold oversold_threshold : ℚ) (rsi : FVal) : ℚ :=
  if fvalGt rsi overbought_threshold then -1
  else if fvalLt rsi oversold_threshold then 1
  else 0

/-- `RSIStrategy.generate_signals` (`src/strategy.py` lines 120-139):
price deltas, rolling mean of gains and of losses over `rsi_period`,
`rs = gain / loss`, `rsi = 100 - 100/(1+rs)`, then the threshold rules;
the final `fillna(0)` is a no-op on the signal column because undefined
RSI already compares false against both thresholds. -/
def rsiSignals (rsi_period : ℕ) (overbought_threshold oversold_threshold : ℚ)
    (prices : List ℚ) : List SignalRow :=
  let deltas := diffList prices
  let gain := rollingMean rsi_period (gainsOf deltas)
  let loss := rollingMean rsi_period (lossesOf deltas)
  let rsi := (List.zipWith rsCombine gain loss).map rsiFromRS
  List.zipWith
    (fun p r => { price := p, signal := rsiStepSignal overbought_threshold oversold_threshold r })
    prices rsi

/-- `Series.rolling(window=w, min_periods=1).mean()` (`src/strategy.py`
lines 62-63): entry `i` averages the last `min w (i+1)` prices, so
partial windows at the start of the series still produce values. -/
def rollingMeanMin1 (w : ℕ) (xs : List ℚ) : List ℚ :=
  (List.range xs.length).map fun i =>
    (((xs.take (i + 1)).drop (i + 1 - min w (i + 1))).sum) / ((min w (i + 1) : ℕ) : ℚ)

/-- The boolean crossover state column of
`MovingAverageCrossover.generate_signals` (`src/strategy.py` lines
66-71): 0 at indices below `short_window`, and from `short_window`
onward 1 when the short moving average exceeds the long one, else 0. -/
def macStateList (short_window long_window : ℕ) (prices : List ℚ) : List ℚ :=
  (List.range prices.length).map fun i =>
    if short_window ≤ i ∧
        (rollingMeanMin1 long_window prices).getD i 0 <
          (rollingMeanMin1 short_window prices).getD i 0 then 1 else 0

/-- Tail of `Series.diff()` on the state column, carrying the previous
state. -/
def diffAdj : ℚ → List ℚ → List ℚ
  | _, [] => []
  | prev, y :: ys => (y - prev) :: diffAdj y ys

/-- `signals['signal'].diff()` followed by `fillna(0)` (`src/strategy.py`
lines 74-81): the first entry (NaN) becomes 0 and entry `i > 0` is
`state[i] - state[i-1]`. -/
def diffFill : List ℚ → List ℚ
  | [] => []
  | x :: xs => 0 :: diffAdj x xs

/-- The signal column of `MovingAverageCrossover.generate_signals`: the
filled first difference of the boolean crossover state. -/
def macSignalList (short_window long_window : ℕ) (prices : List ℚ) : List ℚ :=
  diffFill (macStateList short_window long_window prices)

/-- `MovingAverageCrossover.generate_signals` (`src/strategy.py` lines
44-84): the returned frame pairs each price with the crossover-edge
signal. -/
def macSignals (short_window long_window : ℕ) (prices : List ℚ) : List SignalRow :=
  List.zipWith (fun p s => { price := p, signal := s })
    prices (macSignalList short_window long_window prices)

/-- The final boolean crossover state in the words of the specification:
1 when the series is nonempty, the last index is at least
`short_window`, and the short moving average exceeds the long one at
that index; else 0. -/
def macFinalState (short_window long_window : ℕ) (prices : List ℚ) : ℚ :=
  if 1 ≤ prices.length ∧ short_window ≤ prices.length - 1 ∧
      (rollingMeanMin1 long_window prices).getD (prices.length - 1) 0 <
        (rollingMeanMin1 short_window prices).getD (prices.length - 1) 0 then 1 else 0

/-- A parameter combination: the dictionary `itertools.product` builds in
`run_optimization`, as an association list in declaration order. -/
def Combo := List (String × ℚ)
deriving DecidableEq, Repr

/-- `'name' in combo` on a parameter dictionary. -/
def hasParam (c : Combo) (name : String) : Bool :=
  (List.any c fun kv => kv.1 == name)

/-- `combo['name']` on a parameter dictionary (0 in the unreachable
missing-key case). -/
def getParam (c : Combo) (name : String) : ℚ :=
  ((List.find? (fun kv => kv.1 == name) c).map Prod.snd).getD 0

/-- The validation block of `Optimizer._evaluate_combination`
(`src/optimizer.py` lines 31-38): a combination carrying both
`short_window` and `long_window` is rejected unless
`short_window < long_window`, and one carrying both thresholds is
rejected unless `oversold_threshold < overbought_threshold`. -/
def validCombo (c : Combo) : Bool :=
  (!(hasParam c "short_window" && hasParam c "long_window") ||
      decide (getParam c "short_window" < getParam c "long_window")) &&
    (!(hasParam c "oversold_threshold" && hasParam c "overbought_threshold") ||
      decide (getParam c "oversold_threshold" < getParam c "overbought_threshold"))

/-- `Optimizer._evaluate_combination` (`src/optimizer.py` lines 21-47):
reject structurally invalid combinations, then run the evaluation
(strategy construction, signal generation, simulation — abstracted as
`evalStrategy`, which may fail with any exception) inside the
try/except; both a validation rejection and a caught exception yield
`None`, a success yields the combination together with its metrics. -/
def evaluateCombination (evalStrategy : Combo → Except String Metrics) (combo : Combo) :
    Option (Combo × Metrics) :=
  if validCombo combo then
    match evalStrategy combo with
    | Except.ok m => some (combo, m)
    | Except.error _ => none
  else none

/-- `itertools.product` over the declared ranges (`src/optimizer.py`
lines 59-62): every combination as a dictionary in key-declaration
order, rightmost range varying fastest. -/
def cartesianProduct : List (String × List ℚ) → List Combo
  | [] => [[]]
  | (name, vs) :: rest =>
    vs.flatMap fun v => (cartesianProduct rest).map fun c => (name, v) :: c

/-- `all_combinations` in `run_optimization` (`src/optimizer.py`
line 62). -/
def allCombinations (parameter_ranges : List (String × List ℚ)) : List Combo :=
  cartesianProduct parameter_ranges

/-- The collection loop of `Optimizer.run_optimization`
(`src/optimizer.py` lines 67-86): futures are consumed with
`as_completed`, so the successful results are appended in an arbitrary
completion order — modelled by running `_evaluate_combination` over an
explicit `completionOrder` list (a permutation of `allCombinations`)
and keeping the non-`None` results.  No sorting is performed. -/
def runOptimization (evalStrategy : Combo → Except String Metrics)
    (completionOrder : List Combo) : List (Combo × Metrics) :=
  completionOrder.filterMap (evaluateCombination evalStrategy)

/-- The ordering the claim asserts for optimization results: each row's
`final_value` is no larger than its predecessor's. -/
def sortedByFinalValueDesc (rs : List (Combo × Metrics)) : Prop :=
  List.Chain' (fun a b => b.2.final_value ≤ a.2.final_value) rs

/-- Last element of a list, or the supplied default for the empty list. -/
def lastOr (d : ℚ) : List ℚ → ℚ
  | [] => d
  | x :: xs => lastOr x xs

/-- A concrete transcendental-operation instance used by closed
witnesses (the theorems themselves hold for every `FloatOps`). -/
def zeroOps : FloatOps :=
  { pow := fun _ _ => 0, sqrt := fun _ => 0 }

/-- Metrics record carrying only a final value, for closed optimizer
examples. -/
def onlyFinal (v : ℚ) : Metrics :=
  { total_return := 0, cagr := 0, annualized_volatility := none,
    sharpe := none, max_drawdown := 0, final_value := v }

/-- A concrete evaluation function for closed optimizer examples: every
combination succeeds and reports the value of its parameter `a` as the
final value. -/
def evalByA : Combo → Except String Metrics :=
  fun c => Except.ok (onlyFinal (getParam c "a"))

/-- A concrete evaluation function for closed optimizer examples: every
combination raises. -/
def failEval : Combo → Except String Metrics :=
  fun _ => Except.error "boom"

/-- A concrete one-parameter grid (`a` over `1, 2`) for closed optimizer
examples. -/
def rangesEx : List (String × List ℚ) := [("a", [1, 2])]

/-- The candidate list of `rangesEx` in enumeration order — one possible
completion order of the thread pool. -/
def orderFwd : List Combo := allCombinations rangesEx

/-- The candidate list of `rangesEx` in reversed order — another possible
completion order of the thread pool. -/
def orderRev : List Combo := (allCombinations rangesEx).reverse

/-- The trading loop records exactly one portfolio row per signal. -/
theorem simLoop_length (sigs : List SignalRow) :
    ∀ cash positions : ℚ, (simLoop cash positions sigs).length = sigs.length := by
  induction sigs with
  | nil => intro cash positions; rfl
  | cons r rs ih => intro cash positions; simp [simLoop, ih]

/-- C3: `simulate_trading` on an empty signal series fails, but with the
unhandled indexing error coming from `portfolio['total'].iloc[-1]` on an
empty series — not with a dedicated `InsufficientDataError`, which no
code path raises (amended claim). -/
theorem c3_empty_series_unhandled_index_error (ops : FloatOps) (initial : ℚ) :
    simulate_trading ops [] initial = Except.error SimError.indexError := rfl

/-- C3 counterexample: on the empty series the simulator's error is the
generic index error and not the dedicated insufficient-data error the
claim asserts. -/
theorem c3_counterexample :
    simulate_trading zeroOps [] 10000 = Except.error SimError.indexError ∧
      SimError.indexError ≠ SimError.insufficientData :=
  ⟨rfl, by decide⟩

/-- C4 (amended): only `MovingAverageCrossover` validates at
construction — it raises `ValueError` exactly when
`short_window ≥ long_window`; `RSIStrategy` and
`BollingerBandsStrategy` accept every parameter combination at
construction (including `oversold_threshold ≥ overbought_threshold` and
nonsensical windows), and `BuyAndHold` has no parameters. -/
theorem c4_construction_validation :
    (∀ s l : ℤ, l ≤ s → movingAverageCrossoverNew s l =
      Except.error "short_window must be less than long_window.") ∧
    (∀ s l : ℤ, s < l → movingAverageCrossoverNew s l = Except.ok (s, l)) ∧
    (∀ p : ℤ, ∀ ob os : ℚ, rsiStrategyNew p ob os = Except.ok (p, ob, os)) ∧
    (∀ w : ℤ, ∀ sd : ℚ, bollingerBandsStrategyNew w sd = Except.ok (w, sd)) ∧
    buyAndHoldNew = Except.ok () := by
  refine ⟨?_, ?_, fun p ob os => rfl, fun w sd => rfl, rfl⟩
  · intro s l h
    simp [movingAverageCrossoverNew, h]
  · intro s l h
    simp [movingAverageCrossoverNew, not_le.2 h]

/-- C4 counterexample: `RSIStrategy` accepts
`oversold_threshold = 70 ≥ 30 = overbought_threshold` at construction,
and `BollingerBandsStrategy` accepts a negative window — neither raises
any configuration error. -/
theorem c4_counterexample :
    rsiStrategyNew 14 30 70 = Except.ok (14, 30, 70) ∧
      bollingerBandsStrategyNew (-5) 2 = Except.ok (-5, 2) :=
  ⟨rfl, rfl⟩

/-- C4 witness: the amended validation behaviour at concrete windows. -/
theorem c4_witness :
    movingAverageCrossoverNew 200 50 =
        Except.error "short_window must be less than long_window." ∧
      movingAverageCrossoverNew 50 200 = Except.ok (50, 200) :=
  ⟨c4_construction_validation.1 200 50 (by norm_num),
    c4_construction_validation.2.1 50 200 (by norm_num)⟩

/-- C9: the trading step is idempotent on repeated same-direction
signals — a buy signal with no cash left leaves `(cash, positions)`
unchanged, and a sell signal with no position left does too. -/
theorem c9_idempotent_signals (cash positions : ℚ) (r : SignalRow) :
    (r.signal = 1 → cash = 0 → simStep cash positions r = (cash, positions)) ∧
    (r.signal = -1 → positions = 0 → simStep cash positions r = (cash, positions)) := by
  constructor
  · intro h1 h0
    subst h0
    norm_num [simStep, h1]
  · intro h1 h0
    subst h0
    norm_num [simStep, h1]

/-- C9 witness: a buy while fully invested and a sell while fully in
cash are both no-ops at concrete states. -/
theorem c9_witness :
    simStep 0 5 { price := 10, signal := 1 } = (0, 5) ∧
      simStep 7 0 { price := 10, signal := -1 } = (7, 0) :=
  ⟨(c9_idempotent_signals 0 5 { price := 10, signal := 1 }).1 rfl rfl,
    (c9_idempotent_signals 7 0 { price := 10, signal := -1 }).2 rfl rfl⟩

/-- C7: when the rolling loss is 0 and the rolling gain is positive, the
RSI arithmetic produces RS = +∞ and RSI exactly 100 (not NaN and no
division error), and the step signal is -1 whenever
`overbought_threshold < 100`. -/
theorem c7_rsi_loss_zero (g overbought oversold : ℚ) (hg : 0 < g) :
    rsiFromRS (rsCombine (some g) (some 0)) = FVal.fin 100 ∧
    (overbought < 100 →
      rsiStepSignal overbought oversold (rsiFromRS (rsCombine (some g) (some 0))) = -1) := by
  have hrs : rsCombine (some g) (some 0) = FVal.posInf := by
    simp [rsCombine, fdiv, hg.ne', hg]
  rw [hrs]
  exact ⟨rfl, fun h => by simp [rsiStepSignal, rsiFromRS, fvalGt, h]⟩

/-- C7 witness: gain 1, loss 0 gives RSI 100 and signal -1 for the
standard 70/30 thresholds. -/
theorem c7_witness :
    (0:ℚ) < 1 ∧ rsiFromRS (rsCombine (some 1) (some 0)) = FVal.fin 100 ∧
      rsiStepSignal 70 30 (rsiFromRS (rsCombine (some 1) (some 0))) = -1 :=
  ⟨by norm_num, (c7_rsi_loss_zero 1 70 30 (by norm_num)).1,
    (c7_rsi_loss_zero 1 70 30 (by norm_num)).2 (by norm_num)⟩

/-- C5: a combination whose evaluation raises (or fails validation) is
excluded from the result while every other combination is still
evaluated and included when it succeeds — the returned rows are exactly
the successful evaluations of the enumerated grid, for every completion
order; and when every combination fails the run returns the empty list
rather than an error. -/
theorem c5_failure_isolation (evalStrategy : Combo → Except String Metrics)
    (parameter_ranges : List (String × List ℚ)) (completionOrder : List Combo)
    (hperm : completionOrder.Perm (allCombinations parameter_ranges)) :
    (∀ r, r ∈ runOptimization evalStrategy completionOrder ↔
      ∃ c, c ∈ allCombinations parameter_ranges ∧
        evaluateCombination evalStrategy c = some r) ∧
    ((∀ c ∈ allCombinations parameter_ranges,
        evaluateCombination evalStrategy c = none) →
      runOptimization evalStrategy completionOrder = []) := by
  constructor
  · intro r
    rw [runOptimization, List.mem_filterMap]
    constructor
    · rintro ⟨c, hc, he⟩
      exact ⟨c, hperm.mem_iff.1 hc, he⟩
    · rintro ⟨c, hc, he⟩
      exact ⟨c, hperm.mem_iff.2 hc, he⟩
  · intro hall
    rw [runOptimization, List.filterMap_eq_nil_iff]
    intro c hc
    exact hall c (hperm.mem_iff.1 hc)

/-- C5 witness: with a grid of two combinations whose evaluations all
raise, the optimizer returns the empty list rather than an error. -/
theorem c5_witness :
    (∀ c ∈ allCombinations rangesEx, evaluateCombination failEval c = none) ∧
      runOptimization failEval (allCombinations rangesEx) = [] :=
  ⟨by decide, (c5_failure_isolation failEval rangesEx (allCombinations rangesEx)
    (List.Perm.refl _)).2 (by decide)⟩

/-- C1 (amended): `run_optimization` performs no sort — the returned
rows are exactly the successful evaluations in thread-completion order.
What does hold is that the collection is completion-order independent as
a multiset: any two completion orders of the same candidate grid yield
results that are permutations of each other. -/
theorem c1_completion_order_perm (evalStrategy : Combo → Except String Metrics)
    (parameter_ranges : List (String × List ℚ)) (o₁ o₂ : List Combo)
    (h₁ : o₁.Perm (allCombinations parameter_ranges))
    (h₂ : o₂.Perm (allCombinations parameter_ranges)) :
    (runOptimization evalStrategy o₁).Perm (runOptimization evalStrategy o₂) :=
  (h₁.trans h₂.symm).filterMap (evaluateCombination evalStrategy)

/-- C1 witness: the permutation relation at a concrete grid and two
concrete completion orders. -/
theorem c1_witness :
    (orderFwd.Perm (allCombinations rangesEx) ∧ orderRev.Perm (allCombinations rangesEx)) ∧
      (runOptimization evalByA orderFwd).Perm (runOptimization evalByA orderRev) :=
  ⟨⟨List.Perm.refl _, List.reverse_perm _⟩,
    c1_completion_order_perm evalByA rangesEx orderFwd orderRev
      (List.Perm.refl _) (List.reverse_perm _)⟩

/-- C1 counterexample: `orderFwd` and `orderRev` are both legitimate
completion orders of the same two-candidate grid, yet the returned
lists differ, and the enumeration-order run is not sorted by final
value descending — refuting both the sortedness and the run-to-run
identity asserted by the claim. -/
theorem c1_counterexample :
    (orderFwd.Perm (allCombinations rangesEx) ∧ orderRev.Perm (allCombinations rangesEx)) ∧
      runOptimization evalByA orderFwd ≠ runOptimization evalByA orderRev ∧
      ¬ sortedByFinalValueDesc (runOptimization evalByA orderFwd) := by
  have h1 : runOptimization evalByA orderFwd =
      [([("a", 1)], onlyFinal 1), ([("a", 2)], onlyFinal 2)] := rfl
  have h2 : runOptimization evalByA orderRev =
      [([("a", 2)], onlyFinal 2), ([("a", 1)], onlyFinal 1)] := rfl
  refine ⟨⟨List.Perm.refl _, List.reverse_perm _⟩, ?_, ?_⟩
  · rw [h1, h2]
    intro h
    have hh := congrArg (fun l => (l.map (fun r => r.2.final_value)).headD 0) h
    norm_num [onlyFinal] at hh
  · rw [h1]
    intro h
    rw [sortedByFinalValueDesc, List.chain'_cons] at h
    norm_num [onlyFinal] at h

/-- The step update keeps cash and position nonnegative when the price
is positive. -/
theorem simStep_state_nonneg (cash positions : ℚ) (r : SignalRow)
    (hr : 0 < r.price) (hc : 0 ≤ cash) (hp : 0 ≤ positions) :
    0 ≤ (simStep cash positions r).1 ∧ 0 ≤ (simStep cash positions r).2 := by
  unfold simStep
  split_ifs <;>
    exact ⟨by first | exact hc | positivity, by first | exact hp | positivity⟩

/-- A transaction at index 0 means the head signal fires against the
current state. -/
theorem isTransactionAt_zero (cash positions : ℚ) (r : SignalRow) (rs : List SignalRow) :
    isTransactionAt cash positions (r :: rs) 0 ↔
      (r.signal = 1 ∧ 0 < cash) ∨ (r.signal = -1 ∧ 0 < positions) := by
  simp [isTransactionAt, stateBefore]

/-- A transaction at a successor index is a transaction in the tail,
started from the stepped state. -/
theorem isTransactionAt_succ (cash positions : ℚ) (r : SignalRow)
    (rs : List SignalRow) (i : ℕ) :
    isTransactionAt cash positions (r :: rs) (i + 1) ↔
      isTransactionAt (simStep cash positions r).1 (simStep cash positions r).2 rs i := by
  simp [isTransactionAt, stateBefore]

/-- Generalized loop invariant: starting from any nonnegative
`(cash, positions)` state, every recorded row has nonnegative cash and
holdings, its total is their sum, and a transaction step zeroes one of
the two. -/
theorem simLoop_inv (sigs : List SignalRow) :
    ∀ cash positions : ℚ, (∀ r ∈ sigs, 0 < r.price) → 0 ≤ cash → 0 ≤ positions →
      ∀ i, ∀ h : i < (simLoop cash positions sigs).length,
        0 ≤ ((simLoop cash positions sigs).get ⟨i, h⟩).cash ∧
        0 ≤ ((simLoop cash positions sigs).get ⟨i, h⟩).holdings ∧
        ((simLoop cash positions sigs).get ⟨i, h⟩).total =
          ((simLoop cash positions sigs).get ⟨i, h⟩).cash +
            ((simLoop cash positions sigs).get ⟨i, h⟩).holdings ∧
        (isTransactionAt cash positions sigs i →
          ((simLoop cash positions sigs).get ⟨i, h⟩).cash = 0 ∨
            ((simLoop cash positions sigs).get ⟨i, h⟩).holdings = 0) := by
  induction sigs with
  | nil =>
    intro cash positions _ _ _ i h
    simp [simLoop] at h
  | cons r rs ih =>
    intro cash positions hp hc hpos i h
    have hr : 0 < r.price := hp r (List.mem_cons_self r rs)
    have hstep := simStep_state_nonneg cash positions r hr hc hpos
    cases i with
    | zero =>
      refine ⟨hstep.1, mul_nonneg hstep.2 hr.le, add_comm _ _, ?_⟩
      intro ht
      rcases (isTransactionAt_zero cash positions r rs).1 ht with ⟨h1, h2⟩ | ⟨h1, h2⟩
      · left
        show (simStep cash positions r).1 = 0
        simp [simStep, h1, h2]
      · right
        show (simStep cash positions r).2 * r.price = 0
        norm_num [simStep, h1, h2]
    | succ i =>
      have h' : i < (simLoop (simStep cash positions r).1 (simStep cash positions r).2 rs).length := by
        simpa [simLoop] using h
      have hrec := ih (simStep cash positions r).1 (simStep cash positions r).2
        (fun x hx => hp x (List.mem_cons_of_mem _ hx)) hstep.1 hstep.2 i h'
      rw [isTransactionAt_succ]
      exact hrec

/-- C2: for positive prices and a positive initial investment, every
step of the portfolio series built by the trading loop of
`simulate_trading` has `cash ≥ 0`, `holdings ≥ 0`, and
`total = cash + holdings`, and immediately after a step whose signal
triggered a buy or sell transaction at most one of cash and holdings is
nonzero. -/
theorem c2_portfolio_invariants (sigs : List SignalRow) (initial : ℚ)
    (hprices : ∀ r ∈ sigs, 0 < r.price) (hinitial : 0 < initial) :
    ∀ i, ∀ h : i < (simLoop initial 0 sigs).length,
      0 ≤ ((simLoop initial 0 sigs).get ⟨i, h⟩).cash ∧
      0 ≤ ((simLoop initial 0 sigs).get ⟨i, h⟩).holdings ∧
      ((simLoop initial 0 sigs).get ⟨i, h⟩).total =
        ((simLoop initial 0 sigs).get ⟨i, h⟩).cash +
          ((simLoop initial 0 sigs).get ⟨i, h⟩).holdings ∧
      (isTransactionAt initial 0 sigs i →
        ((simLoop initial 0 sigs).get ⟨i, h⟩).cash = 0 ∨
          ((simLoop initial 0 sigs).get ⟨i, h⟩).holdings = 0) :=
  simLoop_inv sigs initial 0 hprices hinitial.le le_rfl

/-- C2 witness: a concrete one-step buy satisfies the invariants. -/
theorem c2_witness :
    (0:ℚ) < 10000 ∧
      0 ≤ ((simLoop 10000 0 [{ price := 10, signal := 1 }]).get
        ⟨0, by norm_num [simLoop]⟩).cash :=
  ⟨by norm_num,
    (c2_portfolio_invariants [{ price := 10, signal := 1 }] 10000
      (by intro r hr; rw [List.mem_singleton] at hr; subst hr; norm_num)
      (by norm_num) 0 (by norm_num [simLoop])).1⟩

/-- A rolling mean whose window exceeds the series length is undefined
everywhere. -/
theorem rollingMean_eq_none (w : ℕ) (xs : List ℚ) (hlen : xs.length < w) :
    ∀ o ∈ rollingMean w xs, o = none := by
  intro o ho
  rcases List.mem_map.1 ho with ⟨i, hi, rfl⟩
  have hi' : i < xs.length := List.mem_range.1 hi
  rw [if_pos (by omega)]

/-- Combining an everywhere-undefined gain column with any loss column
yields NaN at every step. -/
theorem zipWith_rsCombine_nan (gs : List (Option ℚ)) :
    ∀ ls : List (Option ℚ), (∀ g ∈ gs, g = none) →
      ∀ x ∈ List.zipWith rsCombine gs ls, x = FVal.nan := by
  induction gs with
  | nil =>
    intro ls _ x hx
    simp at hx
  | cons g gs ih =>
    intro ls hg x hx
    cases ls with
    | nil => simp at hx
    | cons l ls =>
      rw [List.zipWith_cons_cons] at hx
      rcases List.mem_cons.1 hx with hx | hx
      · subst hx
        have hgn : g = none := hg g (List.mem_cons_self g gs)
        subst hgn
        cases l <;> rfl
      · exact ih ls (fun a ha => hg a (List.mem_cons_of_mem _ ha)) x hx

/-- Pairing prices with an everywhere-NaN RSI column yields signal 0 at
every step. -/
theorem zipWith_nan_signal_zero (overbought oversold : ℚ) (ps : List ℚ) :
    ∀ rsis : List FVal, (∀ v ∈ rsis, v = FVal.nan) →
      ∀ row ∈ List.zipWith
        (fun p r => SignalRow.mk p (rsiStepSignal overbought oversold r)) ps rsis,
        row.signal = 0 := by
  induction ps with
  | nil =>
    intro rsis _ row hrow
    simp at hrow
  | cons p ps ih =>
    intro rsis hv row hrow
    cases rsis with
    | nil => simp at hrow
    | cons v vs =>
      rw [List.zipWith_cons_cons] at hrow
      rcases List.mem_cons.1 hrow with hrow | hrow
      · subst hrow
        have hvn : v = FVal.nan := hv v (List.mem_cons_self v vs)
        subst hvn
        rfl
      · exact ih vs (fun a ha => hv a (List.mem_cons_of_mem _ ha)) row hrow

/-- C6 (amended): when `rsi_period` strictly exceeds the series length,
every rolling mean is undefined, RSI is NaN everywhere, and
`RSIStrategy.generate_signals` emits signal 0 at every step.  (At
`rsi_period` equal to the series length the claim fails: the final step
has a full window — see the counterexample.) -/
theorem c6_rsi_undefined_holds (rsi_period : ℕ) (overbought oversold : ℚ)
    (prices : List ℚ) (hlen : prices.length < rsi_period) :
    ∀ row ∈ rsiSignals rsi_period overbought oversold prices, row.signal = 0 := by
  intro row hrow
  unfold rsiSignals at hrow
  refine zipWith_nan_signal_zero overbought oversold prices _ ?_ row hrow
  intro v hv
  rcases List.mem_map.1 hv with ⟨x, hx, rfl⟩
  have hx' : x = FVal.nan := by
    refine zipWith_rsCombine_nan _ _ ?_ x hx
    apply rollingMean_eq_none
    simpa [gainsOf, diffList] using hlen
  rw [hx']
  rfl

/-- C6 counterexample: with `rsi_period = 2` on the two-step rising
series `[1, 2]` (so `period ≥ length` as the claim assumes), the final
step has a full window, zero rolling loss and positive rolling gain, so
RSI is 100 and the emitted signal is -1, not 0. -/
theorem c6_counterexample :
    ([(1:ℚ), 2].length ≤ 2) ∧
      ¬ (∀ row ∈ rsiSignals 2 70 30 [(1:ℚ), 2], row.signal = 0) := by
  have hcomp : rsiSignals 2 70 30 [(1:ℚ), 2] =
      [{ price := 1, signal := 0 }, { price := 2, signal := -1 }] := by
    norm_num [rsiSignals, diffList, gainsOf, lossesOf, rollingMean, List.range_succ,
      rsCombine, fdiv, rsiFromRS, rsiStepSignal, fvalGt, fvalLt]
  refine ⟨by norm_num, fun hall => ?_⟩
  have h2 := hall { price := 2, signal := -1 }
    (by rw [hcomp]; exact List.mem_cons_of_mem _ (List.mem_singleton.2 rfl))
  norm_num at h2

/-- C6 witness: period 3 on a length-2 series emits only zeros. -/
theorem c6_witness :
    ([(1:ℚ), 2].length < 3) ∧
      ∀ row ∈ rsiSignals 3 70 30 [(1:ℚ), 2], row.signal = 0 :=
  ⟨by norm_num, c6_rsi_undefined_holds 3 70 30 [1, 2] (by norm_num)⟩

/-- Projecting the signal column out of the price/signal pairing
recovers the signal list when the columns have equal length. -/
theorem map_signal_zipWith (ps : List ℚ) :
    ∀ ss : List ℚ, ps.length = ss.length →
      (List.zipWith (fun p s => SignalRow.mk p s) ps ss).map SignalRow.signal = ss := by
  induction ps with
  | nil =>
    intro ss h
    rw [List.length_nil] at h
    rw [(List.length_eq_zero.1 h.symm)]
    rfl
  | cons p ps ih =>
    intro ss h
    cases ss with
    | nil => simp at h
    | cons s ss =>
      rw [List.zipWith_cons_cons, List.map_cons, ih ss (by simpa using h)]

/-- The adjacent-difference list telescopes: its sum is the last value
(or the seed for an empty tail) minus the seed. -/
theorem diffAdj_sum (ys : List ℚ) :
    ∀ prev : ℚ, (diffAdj prev ys).sum = lastOr prev ys - prev := by
  induction ys with
  | nil =>
    intro prev
    simp [diffAdj, lastOr]
  | cons y ys ih =>
    intro prev
    rw [diffAdj, List.sum_cons, ih y]
    show y - prev + (lastOr y ys - y) = lastOr y ys - prev
    ring

/-- Appending a final element makes it the `lastOr` value. -/
theorem lastOr_concat (l : List ℚ) :
    ∀ d a : ℚ, lastOr d (l ++ [a]) = a := by
  induction l with
  | nil => intro d a; rfl
  | cons x xs ih => intro d a; exact ih x a

/-- The adjacent-difference list has the length of its input. -/
theorem diffAdj_length (ys : List ℚ) :
    ∀ prev : ℚ, (diffAdj prev ys).length = ys.length := by
  induction ys with
  | nil => intro prev; rfl
  | cons y ys ih => intro prev; simp [diffAdj, ih]

/-- The filled difference list has the length of its input. -/
theorem diffFill_length (xs : List ℚ) : (diffFill xs).length = xs.length := by
  cases xs with
  | nil => rfl
  | cons x xs => simp [diffFill, diffAdj_length]

/-- C8: the emitted crossover signals sum to the final boolean crossover
state (1 exactly when the short moving average is above the long one at
the last step and that index is at least `short_window`), the initial
state being 0.  `short_window ≥ 1` is required for
`generate_signals` to run at all (pandas rejects `window=0` with
`min_periods=1`), and `short_window < long_window` is enforced by the
constructor. -/
theorem c8_crossover_telescopes (short_window long_window : ℕ) (prices : List ℚ)
    (hshort : 1 ≤ short_window) (hvalid : short_window < long_window) :
    ((macSignals short_window long_window prices).map SignalRow.signal).sum =
      macFinalState short_window long_window prices := by
  cases prices with
  | nil =>
    simp only [macSignals, macSignalList, macStateList, macFinalState]
    norm_num [diffFill]
  | cons p ps =>
    rw [macSignals, map_signal_zipWith _ _
      (by simp [macSignalList, diffFill_length, macStateList])]
    have hstate : macStateList short_window long_window (p :: ps) =
        (0 : ℚ) :: (List.range ps.length).map
          (fun i => if short_window ≤ i + 1 ∧
              (rollingMeanMin1 long_window (p :: ps)).getD (i + 1) 0 <
                (rollingMeanMin1 short_window (p :: ps)).getD (i + 1) 0 then 1 else 0) := by
      rw [macStateList]
      rw [show (p :: ps).length = ps.length + 1 from rfl, List.range_succ_eq_map]
      rw [List.map_cons, List.map_map]
      congr 1
      · rw [if_neg]
        intro hcon
        omega
    rw [macSignalList, hstate]
    simp only [diffFill, List.sum_cons, diffAdj_sum]
    have hlast : lastOr 0 ((List.range ps.length).map
        (fun i => if short_window ≤ i + 1 ∧
            (rollingMeanMin1 long_window (p :: ps)).getD (i + 1) 0 <
              (rollingMeanMin1 short_window (p :: ps)).getD (i + 1) 0 then (1:ℚ) else 0)) =
        macFinalState short_window long_window (p :: ps) := by
      cases hn : ps.length with
      | zero =>
        rw [List.range_zero, List.map_nil]
        show (0:ℚ) = macFinalState short_window long_window (p :: ps)
        rw [macFinalState, if_neg]
        intro hcon
        rcases hcon with ⟨_, h2, _⟩
        rw [List.length_cons, hn] at h2
        omega
      | succ n =>
        rw [List.range_succ, List.map_append, List.map_singleton, lastOr_concat]
        rw [macFinalState]
        simp only [List.length_cons, hn, Nat.add_sub_cancel]
        by_cases hA : short_window ≤ n + 1 ∧
            (rollingMeanMin1 long_window (p :: ps)).getD (n + 1) 0 <
              (rollingMeanMin1 short_window (p :: ps)).getD (n + 1) 0
        · rw [if_pos hA, if_pos ⟨by omega, hA⟩]
        · rw [if_neg hA, if_neg (fun hc => hA hc.2)]
    rw [hlast]
    ring

/-- C8 witness: windows 1/2 on the rising series `[1, 2, 3]` — the
signals sum to 1 and the short average ends above the long one. -/
theorem c8_witness :
    ((1:ℕ) ≤ 1 ∧ (1:ℕ) < 2) ∧
      ((macSignals 1 2 [1, 2, 3]).map SignalRow.signal).sum =
        macFinalState 1 2 [1, 2, 3] :=
  ⟨⟨le_refl 1, by norm_num⟩,
    c8_crossover_telescopes 1 2 [1, 2, 3] (le_refl 1) (by norm_num)⟩

/-- On a one-element series the metrics block sees a single total, a
single (undefined) daily return, and therefore an undefined volatility
and an undefined Sharpe ratio. -/
theorem computeMetrics_single (ops : FloatOps) (initial t : ℚ) (n : ℕ) :
    (computeMetrics ops initial n [t] t).annualized_volatility = none ∧
      (computeMetrics ops initial n [t] t).sharpe = none :=
  ⟨rfl, rfl⟩

/-- C10: on any length-1 signal series the simulator succeeds, its
daily-return series has no defined entry, `annualized_volatility` is
NaN (`none`), and — because the Sharpe guard only compares the
volatility against zero, which a NaN passes — `sharpe` is NaN as well,
not 0. -/
theorem c10_singleton_nan_sharpe (ops : FloatOps) (s : SignalRow) (initial : ℚ) :
    ∃ m pf, simulate_trading ops [s] initial = Except.ok (m, pf) ∧
      m.annualized_volatility = none ∧ m.sharpe = none ∧ m.sharpe ≠ some 0 := by
  have h := computeMetrics_single ops initial
    ((simStep initial 0 s).2 * s.price + (simStep initial 0 s).1) 1
  refine ⟨computeMetrics ops initial 1
      [(simStep initial 0 s).2 * s.price + (simStep initial 0 s).1]
      ((simStep initial 0 s).2 * s.price + (simStep initial 0 s).1),
    simLoop initial 0 [s], rfl, h.1, h.2, ?_⟩
  rw [h.2]
  exact fun hc => Option.noConfusion hc

/-- C10 witness: concrete instance at a one-signal series. -/
theorem c10_witness :
    ∃ m pf, simulate_trading zeroOps [{ price := 10, signal := 1 }] 10000 =
        Except.ok (m, pf) ∧
      m.annualized_volatility = none ∧ m.sharpe = none ∧ m.sharpe ≠ some 0 :=
  c10_singleton_nan_sharpe zeroOps { price := 10, signal := 1 } 10000

end RoboAdvisor
